import Mathlib

/-!
Verification of the pst_to_mbox ingestion pipeline.

Shallow embedding of `mbox_parser.py`, `db_manager.py` and `main.py`.
Python strings are modelled as Lean `String` (or `List Char` where slicing
matters); machine integers do not occur; the SQLite database behind one
path is modelled as a list of rows in insertion order; fallible calls
return a `Bool` or an `Except` value mirroring the caught exceptions.
-/

/-! ## Character and string helpers (Python `str` and `os.path` fragments) -/

/-- Leading and trailing spaces removed, as `str.strip()` does for the
space-separated header fragments handled here. -/
def strip_chars (l : List Char) : List Char :=
  ((l.dropWhile (fun c => c = ' ')).reverse.dropWhile (fun c => c = ' ')).reverse

/-- Lexicographic (bytewise) comparison of two character lists; models
SQLite's default BINARY collation on TEXT columns (UTF-8 byte order agrees
with code-point order). -/
def lex_le : List Char → List Char → Bool
  | [], _ => true
  | _ :: _, [] => false
  | a :: as, b :: bs =>
    if a.toNat < b.toNat then true
    else if b.toNat < a.toNat then false
    else lex_le as bs

/-- SQLite BINARY `<=` on TEXT values. -/
def str_le (a b : String) : Bool := lex_le a.data b.data

/-- ASCII lower-casing, as SQLite's default `LIKE` applies to the ASCII range. -/
def ascii_lower (c : Char) : Char :=
  if 65 ≤ c.toNat ∧ c.toNat ≤ 90 then Char.ofNat (c.toNat + 32) else c

/-- Case-sensitive substring containment (the plain reading of
"substring match"); used to state what the spec literally claims. -/
def contains_substr (hay needle : List Char) : Bool :=
  needle.isPrefixOf hay ||
    match hay with
    | [] => false
    | _ :: t => contains_substr t needle

/-- SQLite `LIKE` matching with fuel (each step shrinks pattern+text, so
`p.length + t.length + 1` fuel always suffices): `%` matches any sequence,
`_` any single character, other characters match ASCII case-insensitively. -/
def like_match_fuel : Nat → List Char → List Char → Bool
  | 0, _, _ => false
  | _ + 1, [], t => t.isEmpty
  | fuel + 1, '%' :: ps, t =>
    like_match_fuel fuel ps t ||
      (match t with
       | [] => false
       | _ :: ts => like_match_fuel fuel ('%' :: ps) ts)
  | fuel + 1, '_' :: ps, t =>
    (match t with
     | [] => false
     | _ :: ts => like_match_fuel fuel ps ts)
  | fuel + 1, c :: ps, t =>
    (match t with
     | [] => false
     | d :: ts => (ascii_lower c == ascii_lower d) && like_match_fuel fuel ps ts)

/-- SQLite `LIKE pattern` applied to a text value. -/
def like_match (p t : List Char) : Bool :=
  like_match_fuel (p.length + t.length + 1) p t

/-! ## `sanitize_filename` (mbox_parser.py lines 81-108) and its `os.path` helpers -/

/-- The characters replaced by `re.sub(r'[\\/:*?"<>|]', '_', filename)`.
`Char.ofNat 34` is the double-quote character. -/
def bad_chars : List Char := ['\\', '/', ':', '*', '?', Char.ofNat 34, '<', '>', '|']

/-- `os.path.basename` on POSIX: everything after the last `/`. -/
def basename (s : List Char) : List Char :=
  (s.reverse.takeWhile (fun c => c ≠ '/')).reverse

/-- The `re.sub(r'[\\/:*?"<>|]', '_', filename)` step. -/
def replace_bad (s : List Char) : List Char :=
  s.map (fun c => if c ∈ bad_chars then '_' else c)

/-- `os.path.splitext` on POSIX, for strings with no path separator (the
argument in `sanitize_filename` has already been through `basename` and the
separator-replacing substitution): split at the last dot provided some
earlier character is not a dot; otherwise the extension is empty. -/
def splitext (s : List Char) : List Char × List Char :=
  if s.contains '.' then
    let extLen := (s.reverse.takeWhile (fun c => c ≠ '.')).length
    let sepIdx := s.length - extLen - 1
    if (s.take sepIdx).any (fun c => c ≠ '.') then (s.take sepIdx, s.drop sepIdx)
    else (s, [])
  else (s, [])

/-- Python slice `s[:n]` for a possibly negative bound: a negative bound
drops that many characters from the end (empty when it exceeds the length). -/
def py_slice_to (s : List Char) (n : Int) : List Char :=
  if 0 ≤ n then s.take n.toNat else s.take (s.length - n.natAbs)

/-- `sanitize_filename` with `SecurityConfig.sanitize_filenames = True` (the
module default): basename, character substitution, then
`name[:255-len(ext)] + ext` when the result is longer than 255. -/
def sanitize_filename (s : List Char) : List Char :=
  let f := replace_bad (basename s)
  if 255 < f.length then
    let ne := splitext f
    py_slice_to ne.1 ((255 : Int) - ne.2.length) ++ ne.2
  else f

/-! ## Data model: email data dictionaries and stored rows (db_manager.py) -/

/-- A Python dictionary of email data, as built by `create_email_data` and
consumed by `validate_email_data` / `prepare_email_data`: an association
list from key to string value (first occurrence wins, as for dict lookup). -/
def EmailDict : Type := List (String × String)

instance : DecidableEq EmailDict := by
  unfold EmailDict
  infer_instance

instance {e a : Type} [DecidableEq e] [DecidableEq a] : DecidableEq (Except e a) := fun x y =>
  match x, y with
  | Except.ok v, Except.ok w =>
    if h : v = w then Decidable.isTrue (by rw [h]) else Decidable.isFalse (by simp [h])
  | Except.error v, Except.error w =>
    if h : v = w then Decidable.isTrue (by rw [h]) else Decidable.isFalse (by simp [h])
  | Except.ok _, Except.error _ => Decidable.isFalse (by simp)
  | Except.error _, Except.ok _ => Decidable.isFalse (by simp)

/-- One row of the `emails` table (the nine inserted columns; the generated
primary key is the position in the list). -/
structure EmailRow where
  subject : String
  sender_name : String
  sender_email : String
  recipient_name : String
  recipient_email : String
  attachment_filename : String
  attachment_type : String
  email_date : String
  source_pst : String
deriving DecidableEq

/-- `data_dict.get(key, '')` (all values are strings here, so the
`or ''` normalisation in `prepare_email_data` is the identity). -/
def dget (d : EmailDict) (k : String) : String :=
  (List.lookup k d).getD ""

/-- `create_email_data` (mbox_parser.py lines 232-262): the dictionary with
the nine fixed keys. -/
def create_email_data (subject sender_name sender_email receiver_name receiver_email date attachment_name content_type source_pst : String) : EmailDict :=
  [("subject", subject),
   ("sender_name", sender_name),
   ("sender_email", sender_email),
   ("recipient_name", receiver_name),
   ("recipient_email", receiver_email),
   ("attachment_filename", attachment_name),
   ("attachment_type", content_type),
   ("email_date", date),
   ("source_pst", source_pst)]

/-- The required keys of `validate_email_data` (db_manager.py lines 142-145);
note `source_pst` is not required. -/
def required_keys : List String :=
  ["subject", "sender_name", "sender_email", "recipient_name",
   "recipient_email", "attachment_filename", "attachment_type", "email_date"]

/-- `validate_email_data` raises `InvalidDataError` iff a required key is
missing; modelled as the boolean "no required key is missing". -/
def validate_email_data (d : EmailDict) : Bool :=
  required_keys.all (fun k => (List.lookup k d).isSome)

/-- `prepare_email_data` (db_manager.py lines 152-171): the tuple of the nine
column values, each `data_dict.get(key, '') or ''`. -/
def prepare_email_data (d : EmailDict) : EmailRow :=
  ⟨dget d "subject", dget d "sender_name", dget d "sender_email",
   dget d "recipient_name", dget d "recipient_email",
   dget d "attachment_filename", dget d "attachment_type",
   dget d "email_date", dget d "source_pst"⟩

/-- `get_email_count`: `SELECT COUNT(*) FROM emails`. -/
def get_email_count (db : List EmailRow) : Nat := db.length

/-- The first positional argument of `sqlite3.connect` inside
`get_db_connection` must be a path string, but `mbox_parser` passes its
`sqlite3.Connection` object as the `db_name` argument of `store_data`;
this type distinguishes the two call shapes. -/
inductive DbTarget
  | path : String → DbTarget
  | conn : DbTarget

/-- `store_data` (db_manager.py lines 173-231).  With a path target it
validates, inserts one row in its own transaction and returns True (the
`emails` table has no uniqueness constraint, so the modelled insert
succeeds); a record with a missing required key is rejected with False and
nothing stored.  With a connection target, `get_db_connection` applies
`os.path.dirname` to the connection object, which raises `TypeError`; the
generic `except Exception` handler in `store_data` catches it and returns
False, so nothing is ever written through this call shape. -/
def store_data (d : EmailDict) (target : DbTarget) (db : List EmailRow) : List EmailRow × Bool :=
  match target with
  | DbTarget.conn => (db, false)
  | DbTarget.path _ =>
    if validate_email_data d then (db ++ [prepare_email_data d], true)
    else (db, false)

/-! ## `store_data_batch` (db_manager.py lines 233-310) -/

/-- Environment for one `store_data_batch` call: whether the connection
opens, and whether `executemany` succeeds on a given chunk (an
`sqlite3.Error` there is caught, the chunk's transaction rolled back and the
whole chunk counted as failed). -/
structure BatchEnv where
  connOk : Bool
  insOk : List EmailRow → Bool

/-- The per-record loop plus final flush of `store_data_batch`: arguments
are remaining records, `current_batch`, database contents, `successful`,
`failed`. -/
def sdb_go (env : BatchEnv) (batch_size : Nat) :
    List EmailDict → List EmailRow → List EmailRow → Nat → Nat → Nat × Nat × List EmailRow
  | [], cur, db, s, f =>
    if cur.isEmpty then (s, f, db)
    else if env.insOk cur then (s + cur.length, f, db ++ cur)
    else (s, f + cur.length, db)
  | d :: ds, cur, db, s, f =>
    if validate_email_data d then
      let cur' := cur ++ [prepare_email_data d]
      if batch_size ≤ cur'.length then
        if env.insOk cur' then sdb_go env batch_size ds [] (db ++ cur') (s + cur'.length) f
        else sdb_go env batch_size ds [] db s (f + cur'.length)
      else sdb_go env batch_size ds cur' db s f
    else sdb_go env batch_size ds cur db s (f + 1)

/-- `store_data_batch`: returns `(successful, failed, database)`.  An empty
input returns immediately; a connection failure at open is caught and counts
every record as failed (`failed += len(data_list) - successful` with
`successful = 0`). -/
def store_data_batch (env : BatchEnv) (data : List EmailDict) (db : List EmailRow) (batch_size : Nat) : Nat × Nat × List EmailRow :=
  if data.isEmpty then (0, 0, db)
  else if env.connOk then sdb_go env batch_size data [] db 0 0
  else (0, data.length, db)

/-! ## `query_emails` (db_manager.py lines 333-412) -/

/-- The optional filters of `query_emails`; `none` means the argument was
not supplied (its Python default `None`). -/
structure QueryFilters where
  sender : Option String
  recipient : Option String
  source_pst : Option String
  date_from : Option String
  date_to : Option String
  with_attachments : Option Bool

/-- One `if <arg>:` block of the WHERE-clause construction: a `None` or
empty-string argument adds no condition (both are falsy), otherwise one
condition is appended. -/
def cond_block (o : Option String) (mk : String → EmailRow → Bool) : List (EmailRow → Bool) :=
  match o with
  | none => []
  | some s => if s == "" then [] else [mk s]

/-- The `with_attachments is not None` block. -/
def wa_block (o : Option Bool) : List (EmailRow → Bool) :=
  match o with
  | none => []
  | some true => [fun r => !(r.attachment_filename == "")]
  | some false => [fun r => r.attachment_filename == ""]

/-- The SQL `LIKE` pattern `f"%{s}%"` built for the sender and recipient
filters. -/
def like_pat (s : String) : List Char := '%' :: (s.data ++ ['%'])

/-- The list of WHERE conditions built by `query_emails`, in construction
order: `sender_email LIKE ?`, `recipient_email LIKE ?`, `source_pst = ?`,
`email_date >= ?`, `email_date <= ?`, and the attachment-presence test. -/
def query_conds (q : QueryFilters) : List (EmailRow → Bool) :=
  cond_block q.sender (fun s r => like_match (like_pat s) r.sender_email.data) ++
  cond_block q.recipient (fun s r => like_match (like_pat s) r.recipient_email.data) ++
  cond_block q.source_pst (fun s r => r.source_pst == s) ++
  cond_block q.date_from (fun s r => str_le s r.email_date) ++
  cond_block q.date_to (fun s r => str_le r.email_date s) ++
  wa_block q.with_attachments

/-- Stable insertion into a list kept in descending `email_date` order
(ties keep earlier-inserted rows first). -/
def insert_by_date (r : EmailRow) : List EmailRow → List EmailRow
  | [] => [r]
  | x :: xs =>
    if str_le r.email_date x.email_date then x :: insert_by_date r xs
    else r :: x :: xs

/-- `ORDER BY email_date DESC` over the matching rows. -/
def sort_by_date_desc (l : List EmailRow) : List EmailRow :=
  l.foldl (fun acc r => insert_by_date r acc) []

/-- The result list is in weakly descending `email_date` order. -/
def date_sorted_desc (l : List EmailRow) : Prop :=
  l.Pairwise (fun a b => str_le b.email_date a.email_date = true)

/-- `query_emails`: filter by the conjunction of the built WHERE conditions,
order by date descending, then `LIMIT ? OFFSET ?`. -/
def query_emails (db : List EmailRow) (q : QueryFilters) (limit offset : Nat) : List EmailRow :=
  let matched := db.filter (fun r => (query_conds q).all (fun c => c r))
  ((sort_by_date_desc matched).drop offset).take limit

/-- One optional filter, stated as a predicate: holds when the filter is
absent or empty, otherwise when the row passes it. -/
def opt_pass (o : Option String) (p : String → Bool) : Bool :=
  match o with
  | none => true
  | some s => if s == "" then true else p s

/-- The attachment-presence filter as a predicate. -/
def wa_pass (o : Option Bool) (r : EmailRow) : Bool :=
  match o with
  | none => true
  | some true => !(r.attachment_filename == "")
  | some false => r.attachment_filename == ""

/-- A row matches all supplied filters: LIKE-match (`%s%`) on sender and
recipient address, exact match on source container, inclusive lexicographic
date bounds, and attachment presence by non-empty `attachment_filename`.
Stated independently of the clause-building in `query_emails`, following the
claim's wording with the substring test corrected to SQL LIKE semantics. -/
def matches_filters (q : QueryFilters) (r : EmailRow) : Bool :=
  opt_pass q.sender (fun s => like_match (like_pat s) r.sender_email.data) &&
  opt_pass q.recipient (fun s => like_match (like_pat s) r.recipient_email.data) &&
  opt_pass q.source_pst (fun s => r.source_pst == s) &&
  opt_pass q.date_from (fun s => str_le s r.email_date) &&
  opt_pass q.date_to (fun s => str_le r.email_date s) &&
  wa_pass q.with_attachments r

/-! ## The Message Extractor (mbox_parser.py lines 178-399) -/

/-- One MIME part as consumed through `message.walk()`: content type,
`Content-Disposition` header, `get_filename()` result, and the
`get_payload(decode=True)` bytes (`none` when decoding yields `None`). -/
structure MimePart where
  content_type : String
  content_disposition : Option String
  filename : Option String
  payload : Option (List Nat)
deriving DecidableEq

/-- One mailbox message: the four headers read via `message.get(key, '')`
(an absent header is the empty string) and the parts yielded by `walk()`. -/
structure EmailMessage where
  subject : String
  sender_info : String
  receiver_info : String
  date : String
  parts : List MimePart
deriving DecidableEq

/-- `part.get_content_maintype()`: the content type up to the slash. -/
def get_content_maintype (p : MimePart) : String :=
  p.content_type.takeWhile (fun c => c ≠ '/')

/-- `if attachment_data:` — the decoded payload is truthy when it is
present and non-empty. -/
def payload_truthy (p : MimePart) : Bool :=
  match p.payload with
  | none => false
  | some bs => !bs.isEmpty

/-- `email.utils.parseaddr`, modelled on the plain forms arising here: a
`Name <addr>` header yields the stripped display name and the text between
the angle brackets; a header with no angle bracket is a bare address with an
empty display name. -/
def parseaddr (s : String) : String × String :=
  if s.data.contains '<' then
    (String.mk (strip_chars (s.data.takeWhile (fun c => c ≠ '<'))),
     String.mk (((s.data.dropWhile (fun c => c ≠ '<')).drop 1).takeWhile (fun c => c ≠ '>')))
  else ("", String.mk (strip_chars s.data))

/-- `extract_email_details` (lines 178-199): header lookups and address
parsing; the sensitive-content check there only logs and is omitted. -/
def extract_email_details (m : EmailMessage) : String × String × String × String × String × String :=
  ((m.subject, parseaddr m.sender_info |>.1, parseaddr m.sender_info |>.2,
    parseaddr m.receiver_info |>.1, parseaddr m.receiver_info |>.2, m.date))

/-- `has_required_fields` (lines 201-212): `bool(subject and sender_info and
receiver_info)` — all three strings non-empty. -/
def has_required_fields (subject sender_info receiver_info : String) : Bool :=
  !(subject == "") && !(sender_info == "") && !(receiver_info == "")

/-- `setup_attachment_dir`: `os.path.join(output_dir, 'attachments')`. -/
def setup_attachment_dir (output_dir : String) : String :=
  output_dir ++ "/attachments"

/-- Environment of one parsing run: whether `save_attachment` (an `open` +
`write`, returning False on `IOError`) succeeds at a given path. -/
structure ParseEnv where
  saveOk : String → Bool

/-- The `for part in message.walk()` loop of `process_message_attachments`
(lines 288-323), returning the records appended, the final
`has_attachments` flag and the database (each record is also handed to
`store_data` with the connection object as target). -/
def pma_loop (env : ParseEnv) (save_dir subject sender_name sender_email receiver_name receiver_email date source_pst : String) :
    List MimePart → List EmailRow → List EmailDict × Bool × List EmailRow
  | [], db => ([], false, db)
  | p :: rest, db =>
    if get_content_maintype p == "multipart" then
      pma_loop env save_dir subject sender_name sender_email receiver_name receiver_email date source_pst rest db
    else if p.content_disposition.isNone then
      pma_loop env save_dir subject sender_name sender_email receiver_name receiver_email date source_pst rest db
    else if (p.filename.getD "") == "" then
      pma_loop env save_dir subject sender_name sender_email receiver_name receiver_email date source_pst rest db
    else
      if payload_truthy p then
        let attachment_name := String.mk (sanitize_filename (p.filename.getD "").data)
        let attachment_path := save_dir ++ "/" ++ attachment_name
        if env.saveOk attachment_path then
          let email_data := create_email_data subject sender_name sender_email receiver_name receiver_email date attachment_name p.content_type source_pst
          let stored := store_data email_data DbTarget.conn db
          let next := pma_loop env save_dir subject sender_name sender_email receiver_name receiver_email date source_pst rest stored.1
          (email_data :: next.1, true, next.2.2)
        else
          let next := pma_loop env save_dir subject sender_name sender_email receiver_name receiver_email date source_pst rest db
          (next.1, true, next.2.2)
      else
        let next := pma_loop env save_dir subject sender_name sender_email receiver_name receiver_email date source_pst rest db
        (next.1, true, next.2.2)

/-- `process_message_attachments` (lines 264-335): the part loop followed by
the no-attachment fallback record. -/
def process_message_attachments (env : ParseEnv) (save_dir subject sender_name sender_email receiver_name receiver_email date source_pst : String) (m : EmailMessage) (db : List EmailRow) : List EmailDict × List EmailRow :=
  let looped := pma_loop env save_dir subject sender_name sender_email receiver_name receiver_email date source_pst m.parts db
  if looped.2.1 then (looped.1, looped.2.2)
  else
    let email_data := create_email_data subject sender_name sender_email receiver_name receiver_email date "" "" source_pst
    let stored := store_data email_data DbTarget.conn looped.2.2
    (looped.1 ++ [email_data], stored.1)

/-- The body of the per-message loop in `parse_mbox_file` (lines 368-381):
extract details, skip the message unless `has_required_fields(subject,
sender_name, receiver_name)` holds (note: the parsed display names, not the
raw headers), else process its attachments. -/
def parse_message (env : ParseEnv) (save_dir source_pst : String) (m : EmailMessage) (db : List EmailRow) : List EmailDict × List EmailRow :=
  let subject := m.subject
  let sender_name := (parseaddr m.sender_info).1
  let sender_email := (parseaddr m.sender_info).2
  let receiver_name := (parseaddr m.receiver_info).1
  let receiver_email := (parseaddr m.receiver_info).2
  if has_required_fields subject sender_name receiver_name then
    process_message_attachments env save_dir subject sender_name sender_email receiver_name receiver_email m.date source_pst m db
  else ([], db)

/-- A part that reaches `has_attachments = True`: not multipart, carries a
`Content-Disposition` header, and has a non-empty filename. -/
def is_attachment_part (p : MimePart) : Bool :=
  !(get_content_maintype p == "multipart") &&
  p.content_disposition.isSome &&
  !((p.filename.getD "") == "")

/-- A qualifying part whose payload is truthy and whose sanitized-name save
succeeds — exactly the parts for which a record is emitted. -/
def persist_ok (env : ParseEnv) (save_dir : String) (p : MimePart) : Bool :=
  is_attachment_part p &&
  payload_truthy p &&
  env.saveOk (save_dir ++ "/" ++ String.mk (sanitize_filename (p.filename.getD "").data))

/-- The record emitted for one persisted attachment part. -/
def attachment_record (subject sender_name sender_email receiver_name receiver_email date source_pst : String) (p : MimePart) : EmailDict :=
  create_email_data subject sender_name sender_email receiver_name receiver_email date
    (String.mk (sanitize_filename (p.filename.getD "").data)) p.content_type source_pst

/-- One mailbox file as consumed by `parse_mbox_file`: `msgs` are the
messages successfully yielded by iteration; `broken` records that the
mailbox raises (a malformed container) after yielding them. -/
structure MboxFile where
  name : String
  msgs : List EmailMessage
  broken : Bool
deriving DecidableEq

/-- `parse_mbox_file` (lines 337-399): open a transaction, loop over
messages, and either commit and return the records, or — on any exception —
roll the connection back to its state at `BEGIN TRANSACTION` and re-raise. -/
def parse_mbox_file (env : ParseEnv) (f : MboxFile) (output_dir source_pst : String) (db : List EmailRow) : List EmailRow × Except String (List EmailDict) :=
  let save_dir := setup_attachment_dir output_dir
  let looped := f.msgs.foldl
    (fun acc m =>
      let one := parse_message env save_dir source_pst m acc.2
      (acc.1 ++ one.1, one.2))
    (([] : List EmailDict), db)
  if f.broken then (db, Except.error "parse failure")
  else (looped.2, Except.ok looped.1)

/-- The records one message contributes (independent of the database
state, since the connection-target `store_data` never writes). -/
def message_records (env : ParseEnv) (save_dir source_pst : String) (m : EmailMessage) : List EmailDict :=
  (parse_message env save_dir source_pst m []).1

/-! ## Ingestion Coordinator (main.py lines 136-263) -/

/-- The `for mbox_file in mbox_files:` loop shared by both modes: each file
is parsed with the run's connection; an exception is logged and the loop
continues with the next file. -/
def ingest_mbox_files (env : ParseEnv) (files : List MboxFile) (output_dir source_pst : String) (db : List EmailRow) : List EmailRow :=
  files.foldl (fun acc f => (parse_mbox_file env f output_dir source_pst acc).1) db

/-- `process_single_pst_mboxes` (lines 224-263): `create_db` makes a fresh
per-container store (a fresh run is modelled, so it starts empty), then the
container's mailbox files are ingested into it. -/
def process_single_pst_mboxes (env : ParseEnv) (files : List MboxFile) (pst_mbox_dir pst_file : String) : List EmailRow :=
  ingest_mbox_files env files pst_mbox_dir pst_file []

/-- `determine_source_pst` (lines 109-122): the mailbox file's parent
directory name with `.pst` appended. -/
def determine_source_pst (container : String) : String :=
  container ++ ".pst"

/-- `os.path.splitext(pst_file)[0]` on a plain file name. -/
def splitext_name (pst_file : String) : String :=
  String.mk (splitext pst_file.data).1

/-- The conversion output tree under `mbox_dir`: one entry per container
subdirectory (keyed by the directory name, i.e. the container's base name)
with the mailbox files found inside it. -/
def MboxTree : Type := List (String × List MboxFile)

/-- `process_with_shared_db` (lines 136-177): one store for the whole run;
`find_all_mbox_files` walks every subdirectory, and each file's source label
comes from `determine_source_pst`.  A fresh run is modelled, so the shared
store starts empty. -/
def process_with_shared_db (env : ParseEnv) (mbox_dir : String) (tree : MboxTree) : List EmailRow :=
  ((tree.map (fun e => e.2.map (fun f => (e.1, f)))).flatten).foldl
    (fun db cf => (parse_mbox_file env cf.2 (mbox_dir ++ "/" ++ cf.1) (determine_source_pst cf.1) db).1)
    []

/-- `process_with_separate_dbs` (lines 179-201): one store per converted
container; a container whose mailbox directory is missing is skipped with a
warning and creates no store. -/
def process_with_separate_dbs (env : ParseEnv) (mbox_dir : String) (tree : MboxTree) (pst_files : List String) : List (List EmailRow) :=
  pst_files.filterMap (fun pst_file =>
    match List.lookup (splitext_name pst_file) tree with
    | none => none
    | some files =>
      some (process_single_pst_mboxes env files (mbox_dir ++ "/" ++ splitext_name pst_file) pst_file))

/-! ## Conversion Orchestrator (main.py lines 28-90) -/

/-- One file discovered under the target directory: its joined path and its
bare name. -/
structure PstEntry where
  path : String
  file : String
deriving DecidableEq

/-- `file.endswith(".pst") or file.endswith(".ost")`. -/
def is_pst_file (name : String) : Bool :=
  (".pst".data).isSuffixOf name.data || (".ost".data).isSuffixOf name.data

/-- `pst_to_mbox` (lines 51-90): build the task and name lists in discovery
order, convert each task (`convert_single_pst` returns the boolean exit
status of the external `readpst` call, modelled by the oracle `convOk`),
and keep the names whose conversion succeeded. -/
def pst_to_mbox (convOk : PstEntry → Bool) (found : List PstEntry) : List String :=
  let conversion_tasks := found.filter (fun e => is_pst_file e.file)
  let pst_files := conversion_tasks.map (fun e => e.file)
  if conversion_tasks.isEmpty then []
  else
    let results := conversion_tasks.map convOk
    ((pst_files.zip results).filter (fun pr => pr.2)).map (fun pr => pr.1)

/-! ## Order lemmas for the BINARY collation -/

theorem lex_le_total (a b : List Char) (h : lex_le a b = false) : lex_le b a = true := by
  induction a generalizing b with
  | nil => simp [lex_le] at h
  | cons c cs ih =>
    cases b with
    | nil => simp [lex_le]
    | cons d ds =>
      simp only [lex_le] at h ⊢
      by_cases h1 : c.toNat < d.toNat
      · simp [h1] at h
      · by_cases h2 : d.toNat < c.toNat
        · simp [h2]
        · simp [h1, h2] at h
          have h3 : ¬ d.toNat < c.toNat := h2
          have h4 : ¬ c.toNat < d.toNat := h1
          simp [h3, h4, show ¬ d.toNat < c.toNat from h2]
          exact ih ds h

theorem lex_le_trans (a b c : List Char) (h1 : lex_le a b = true) (h2 : lex_le b c = true) :
    lex_le a c = true := by
  induction a generalizing b c with
  | nil => simp [lex_le]
  | cons x xs ih =>
    cases b with
    | nil => simp [lex_le] at h1
    | cons y ys =>
      cases c with
      | nil => simp [lex_le] at h2
      | cons z zs =>
        simp only [lex_le] at h1 h2 ⊢
        split_ifs at h1 h2 ⊢ <;> first | rfl | omega | exact ih ys zs h1 h2

theorem str_le_total (a b : String) (h : str_le a b = false) : str_le b a = true :=
  lex_le_total a.data b.data h

theorem str_le_trans (a b c : String) (h1 : str_le a b = true) (h2 : str_le b c = true) :
    str_le a c = true :=
  lex_le_trans a.data b.data c.data h1 h2

/-! ## Sorting lemmas for `ORDER BY email_date DESC` -/

theorem insert_by_date_perm (r : EmailRow) (l : List EmailRow) :
    (insert_by_date r l).Perm (r :: l) := by
  induction l with
  | nil => exact List.Perm.refl _
  | cons x xs ih =>
    simp only [insert_by_date]
    split
    · exact (ih.cons x).trans (List.Perm.swap r x xs)
    · exact List.Perm.refl _

theorem sort_fold_perm (l acc : List EmailRow) :
    (l.foldl (fun a r => insert_by_date r a) acc).Perm (acc ++ l) := by
  induction l generalizing acc with
  | nil => simp
  | cons r rest ih =>
    simp only [List.foldl_cons]
    have h1 := ih (insert_by_date r acc)
    have h2 : (insert_by_date r acc ++ rest).Perm ((r :: acc) ++ rest) :=
      (insert_by_date_perm r acc).append_right rest
    have h3 : ((r :: acc) ++ rest).Perm (acc ++ r :: rest) := List.perm_middle.symm
    exact (h1.trans h2).trans h3

theorem sort_by_date_desc_perm (l : List EmailRow) : (sort_by_date_desc l).Perm l := by
  have := sort_fold_perm l []
  simpa [sort_by_date_desc] using this

theorem insert_by_date_sorted (r : EmailRow) (l : List EmailRow) (h : date_sorted_desc l) :
    date_sorted_desc (insert_by_date r l) := by
  induction l with
  | nil => simp [insert_by_date, date_sorted_desc]
  | cons x xs ih =>
    obtain ⟨hx, hxs⟩ := List.pairwise_cons.mp h
    simp only [insert_by_date]
    split
    · rename_i h1
      refine List.pairwise_cons.mpr ⟨?_, ih hxs⟩
      intro y hy
      rcases List.mem_cons.mp ((insert_by_date_perm r xs).mem_iff.mp hy) with hyr | hmem
      · subst hyr; exact h1
      · exact hx y hmem
    · rename_i h1
      have hxr : str_le x.email_date r.email_date = true :=
        str_le_total _ _ (Bool.eq_false_iff.mpr h1)
      refine List.pairwise_cons.mpr ⟨?_, h⟩
      intro y hy
      rcases List.mem_cons.mp hy with hyx | hmem
      · subst hyx; exact hxr
      · exact str_le_trans _ _ _ (hx y hmem) hxr

theorem sort_fold_sorted (l acc : List EmailRow) (h : date_sorted_desc acc) :
    date_sorted_desc (l.foldl (fun a r => insert_by_date r a) acc) := by
  induction l generalizing acc with
  | nil => exact h
  | cons r rest ih => exact ih (insert_by_date r acc) (insert_by_date_sorted r acc h)

theorem sort_by_date_desc_sorted (l : List EmailRow) : date_sorted_desc (sort_by_date_desc l) :=
  sort_fold_sorted l [] List.Pairwise.nil

/-! ## Lemmas about `sanitize_filename` -/

theorem basename_no_slash (s : List Char) : '/' ∉ basename s := by
  unfold basename
  intro h
  rw [List.mem_reverse] at h
  have := List.mem_takeWhile_imp h
  simp at this

theorem replace_bad_not_bad (s : List Char) (c : Char) (h : c ∈ replace_bad s) :
    c ∉ bad_chars := by
  unfold replace_bad at h
  rcases List.mem_map.mp h with ⟨a, _, rfl⟩
  by_cases ha : a ∈ bad_chars
  · simp only [ha, if_true]
    decide
  · simp [ha]

theorem py_slice_to_sublist (s : List Char) (n : Int) : (py_slice_to s n).Sublist s := by
  unfold py_slice_to
  split <;> exact List.take_sublist _ _

theorem splitext_eq_take_drop (t : List Char) :
    ∃ i, i ≤ t.length ∧ splitext t = (t.take i, t.drop i) := by
  unfold splitext
  dsimp only
  split
  · split
    · exact ⟨t.length - (t.reverse.takeWhile (fun c => c ≠ '.')).length - 1, by omega, rfl⟩
    · exact ⟨t.length, le_refl _, by simp⟩
  · exact ⟨t.length, le_refl _, by simp⟩

theorem mem_sanitize_filename (s : List Char) (c : Char) (h : c ∈ sanitize_filename s) :
    c ∈ replace_bad (basename s) := by
  unfold sanitize_filename at h
  dsimp only at h
  split at h
  · obtain ⟨i, hi, hsp⟩ := splitext_eq_take_drop (replace_bad (basename s))
    rw [hsp] at h
    rcases List.mem_append.mp h with h1 | h2
    · exact ((py_slice_to_sublist _ _).trans (List.take_sublist _ _)).subset h1
    · exact (List.drop_sublist _ _).subset h2
  · exact h

theorem sanitize_filename_not_bad (s : List Char) (c : Char) (h : c ∈ sanitize_filename s) :
    c ∉ bad_chars :=
  replace_bad_not_bad _ c (mem_sanitize_filename s c h)

theorem sanitize_filename_length (s : List Char)
    (h : (splitext (replace_bad (basename s))).2.length ≤ 255) :
    (sanitize_filename s).length ≤ 255 := by
  unfold sanitize_filename
  dsimp only
  split
  · rename_i htr
    obtain ⟨i, hi, hsp⟩ := splitext_eq_take_drop (replace_bad (basename s))
    rw [hsp] at h ⊢
    simp only [List.length_drop] at h
    simp only [List.length_append, List.length_drop]
    unfold py_slice_to
    split
    · rename_i hn
      simp only [List.length_take]
      omega
    · rename_i hn
      exfalso
      simp only [not_le] at hn
      omega
  · rename_i htr
    omega

theorem sanitize_ext_suffix (s : List Char) :
    (splitext (replace_bad (basename s))).2.IsSuffix (sanitize_filename s) := by
  unfold sanitize_filename
  dsimp only
  split
  · exact ⟨py_slice_to (splitext (replace_bad (basename s))).1
      ((255 : Int) - (splitext (replace_bad (basename s))).2.length), rfl⟩
  · obtain ⟨i, hi, hsp⟩ := splitext_eq_take_drop (replace_bad (basename s))
    rw [hsp]
    exact ⟨(replace_bad (basename s)).take i, List.take_append_drop i _⟩

theorem bad_subst_eq_dot (x : Char) (h : (if x ∈ bad_chars then '_' else x) = '.') :
    x = '.' := by
  by_cases hx : x ∈ bad_chars
  · rw [if_pos hx] at h
    exact absurd h (by decide)
  · rwa [if_neg hx] at h

theorem replace_bad_eq_dots (t : List Char) (h : replace_bad t = ['.', '.']) :
    t = ['.', '.'] := by
  cases t with
  | nil => simp [replace_bad] at h
  | cons a t1 =>
    cases t1 with
    | nil => simp [replace_bad] at h
    | cons b t2 =>
      cases t2 with
      | cons x xs => simp [replace_bad] at h
      | nil =>
        simp only [replace_bad, List.map_cons, List.map_nil, List.cons.injEq, and_true] at h
        obtain ⟨h1, h2⟩ := h
        rw [bad_subst_eq_dot a h1, bad_subst_eq_dot b h2]

theorem sanitize_trunc_ge (s : List Char) (htr : 255 < (replace_bad (basename s)).length) :
    255 ≤ (sanitize_filename s).length := by
  unfold sanitize_filename
  dsimp only
  rw [if_pos htr]
  obtain ⟨i, hi, hsp⟩ := splitext_eq_take_drop (replace_bad (basename s))
  rw [hsp]
  simp only [List.length_append, List.length_drop]
  unfold py_slice_to
  split
  · rename_i hn
    simp only [List.length_take]
    omega
  · rename_i hn
    simp only [List.length_take]
    omega

theorem sanitize_neq_dots (s : List Char) (h : basename s ≠ ['.', '.']) :
    sanitize_filename s ≠ ['.', '.'] := by
  intro hEq
  by_cases htr : 255 < (replace_bad (basename s)).length
  · have := sanitize_trunc_ge s htr
    rw [hEq] at this
    simp at this
  · have hsan : sanitize_filename s = replace_bad (basename s) := by
      unfold sanitize_filename
      dsimp only
      rw [if_neg htr]
    rw [hsan] at hEq
    exact h (replace_bad_eq_dots _ hEq)

theorem takeWhile_eq_self_of {α : Type} (p : α → Bool) (t : List α) (h : ∀ c ∈ t, p c = true) :
    t.takeWhile p = t := by
  induction t with
  | nil => rfl
  | cons a t ih =>
    rw [List.takeWhile_cons, if_pos (h a (List.mem_cons_self a t))]
    rw [ih fun c hc => h c (List.mem_cons_of_mem a hc)]

theorem basename_of_no_slash (t : List Char) (h : '/' ∉ t) : basename t = t := by
  unfold basename
  rw [takeWhile_eq_self_of _ _ ?_, List.reverse_reverse]
  intro c hc
  simp only [decide_eq_true_eq]
  rintro rfl
  exact h (List.mem_reverse.mp hc)

theorem replace_bad_id (t : List Char) (h : ∀ c ∈ t, c ∉ bad_chars) : replace_bad t = t := by
  unfold replace_bad
  have heach : ∀ c ∈ t, (if c ∈ bad_chars then '_' else c) = c := fun c hc => if_neg (h c hc)
  rw [List.map_congr_left heach]
  exact List.map_id t

theorem sanitize_no_slash (s : List Char) : '/' ∉ sanitize_filename s :=
  fun h => sanitize_filename_not_bad s '/' h (by decide)

theorem sanitize_fixed (t : List Char) (h1 : '/' ∉ t) (h2 : ∀ c ∈ t, c ∉ bad_chars)
    (h3 : t.length ≤ 255) : sanitize_filename t = t := by
  unfold sanitize_filename
  dsimp only
  rw [basename_of_no_slash t h1, replace_bad_id t h2, if_neg (by omega)]

/-! ## Lemmas about the Extractor pipeline -/

theorem store_data_conn (d : EmailDict) (db : List EmailRow) :
    store_data d DbTarget.conn db = (db, false) := rfl

theorem pma_loop_spec (env : ParseEnv) (sd subject sn se rn re_ date sp : String) :
    ∀ (parts : List MimePart) (db : List EmailRow),
    pma_loop env sd subject sn se rn re_ date sp parts db
      = ((parts.filter (persist_ok env sd)).map (attachment_record subject sn se rn re_ date sp),
         parts.any is_attachment_part, db) := by
  intro parts
  induction parts with
  | nil => intro db; rfl
  | cons p rest ih =>
    intro db
    simp only [pma_loop]
    by_cases h1 : (get_content_maintype p == "multipart") = true
    · simp [h1, ih, is_attachment_part, persist_ok, List.filter_cons, List.any_cons]
    · by_cases h2 : p.content_disposition.isNone = true
      · have h2' : p.content_disposition.isSome = false := by
          cases hcd : p.content_disposition <;> simp_all
        simp [h1, h2, h2', ih, is_attachment_part, persist_ok, List.filter_cons, List.any_cons]
      · by_cases h3 : ((p.filename.getD "") == "") = true
        · simp [h1, h2, h3, ih, is_attachment_part, persist_ok, List.filter_cons, List.any_cons]
        · have h2' : p.content_disposition.isSome = true := by
            cases hcd : p.content_disposition <;> simp_all
          have hatt : is_attachment_part p = true := by
            simp [is_attachment_part, h1, h2', h3]
          by_cases h4 : payload_truthy p = true
          · by_cases h5 : env.saveOk (sd ++ "/" ++ String.mk (sanitize_filename (p.filename.getD "").data)) = true
            · have hper : persist_ok env sd p = true := by
                simp [persist_ok, hatt, h4, h5]
              simp [h1, h2, h3, h4, h5, ih, hatt, hper, store_data, attachment_record,
                List.filter_cons, List.any_cons]
            · have hper : persist_ok env sd p = false := by
                simp [persist_ok, h5]
              simp [h1, h2, h3, h4, h5, ih, hatt, hper, List.filter_cons, List.any_cons]
          · have hper : persist_ok env sd p = false := by
              simp [persist_ok, h4]
            simp [h1, h2, h3, h4, ih, hatt, hper, List.filter_cons, List.any_cons]

theorem parse_message_eq (env : ParseEnv) (sd sp : String) (m : EmailMessage) (db : List EmailRow) :
    parse_message env sd sp m db = (message_records env sd sp m, db) := by
  unfold message_records parse_message process_message_attachments
  dsimp only
  by_cases hgate : has_required_fields m.subject (parseaddr m.sender_info).1 (parseaddr m.receiver_info).1 = true
  · by_cases hA : m.parts.any is_attachment_part = true <;>
      simp [hgate, hA, pma_loop_spec, store_data]
  · simp [hgate]

theorem parse_mbox_file_spec (env : ParseEnv) (f : MboxFile) (od sp : String) (db : List EmailRow) :
    parse_mbox_file env f od sp db =
      (db, if f.broken then Except.error "parse failure"
           else Except.ok ((f.msgs.map (message_records env (setup_attachment_dir od) sp)).flatten)) := by
  unfold parse_mbox_file
  have hfold : ∀ (msgs : List EmailMessage) (acc : List EmailDict × List EmailRow),
      msgs.foldl
        (fun acc m =>
          (acc.1 ++ (parse_message env (setup_attachment_dir od) sp m acc.2).1,
           (parse_message env (setup_attachment_dir od) sp m acc.2).2)) acc
        = (acc.1 ++ (msgs.map (message_records env (setup_attachment_dir od) sp)).flatten, acc.2) := by
    intro msgs
    induction msgs with
    | nil => intro acc; simp
    | cons m rest ih =>
      intro acc
      rw [List.foldl_cons, ih]
      simp [parse_message_eq, List.append_assoc]
  dsimp only
  rw [hfold]
  split <;> rfl

theorem parse_mbox_file_db (env : ParseEnv) (f : MboxFile) (od sp : String) (db : List EmailRow) :
    (parse_mbox_file env f od sp db).1 = db := by
  rw [parse_mbox_file_spec]

theorem ingest_mbox_files_db (env : ParseEnv) (files : List MboxFile) (od sp : String) (db : List EmailRow) :
    ingest_mbox_files env files od sp db = db := by
  induction files generalizing db with
  | nil => rfl
  | cons f rest ih =>
    unfold ingest_mbox_files
    rw [List.foldl_cons, parse_mbox_file_db env f od sp db]
    exact ih db

/-! ## Field lemmas for `create_email_data` -/

theorem dget_create_subject (a b c d e f g h i : String) :
    dget (create_email_data a b c d e f g h i) "subject" = a := rfl

theorem dget_create_sender_name (a b c d e f g h i : String) :
    dget (create_email_data a b c d e f g h i) "sender_name" = b := rfl

theorem dget_create_sender_email (a b c d e f g h i : String) :
    dget (create_email_data a b c d e f g h i) "sender_email" = c := rfl

theorem dget_create_recipient_name (a b c d e f g h i : String) :
    dget (create_email_data a b c d e f g h i) "recipient_name" = d := rfl

theorem dget_create_recipient_email (a b c d e f g h i : String) :
    dget (create_email_data a b c d e f g h i) "recipient_email" = e := rfl

theorem validate_create (a b c d e f g h i : String) :
    validate_email_data (create_email_data a b c d e f g h i) = true := rfl

/-! ## Lemmas about `store_data_batch` -/

theorem sdb_go_accounting (env : BatchEnv) (k : Nat) :
    ∀ (ds : List EmailDict) (cur db : List EmailRow) (s f : Nat),
    (sdb_go env k ds cur db s f).1 + (sdb_go env k ds cur db s f).2.1
      = s + f + ds.length + cur.length := by
  intro ds
  induction ds with
  | nil =>
    intro cur db s f
    simp only [sdb_go]
    split
    · rename_i hc
      simp [List.isEmpty_iff.mp hc]
    · split <;> simp <;> omega
  | cons d rest ih =>
    intro cur db s f
    simp only [sdb_go]
    split
    · split
      · split
        · rw [ih]
          simp only [List.length_cons, List.length_append, List.length_nil]
          omega
        · rw [ih]
          simp only [List.length_cons, List.length_append, List.length_nil]
          omega
      · rw [ih]
        simp only [List.length_cons, List.length_append, List.length_nil]
        omega
    · rw [ih]
      simp only [List.length_cons]
      omega

theorem sdb_go_all_ok (env : BatchEnv) (k : Nat) (hins : ∀ c, env.insOk c = true) :
    ∀ (ds : List EmailDict), (∀ d ∈ ds, validate_email_data d = true) →
    ∀ (cur db : List EmailRow) (s f : Nat),
    sdb_go env k ds cur db s f
      = (s + cur.length + ds.length, f, db ++ cur ++ ds.map prepare_email_data) := by
  intro ds
  induction ds with
  | nil =>
    intro _ cur db s f
    simp only [sdb_go]
    split
    · rename_i hc
      simp [List.isEmpty_iff.mp hc]
    · rw [hins cur]
      simp
  | cons d rest ih =>
    intro hv cur db s f
    have hd : validate_email_data d = true := hv d (List.mem_cons_self d rest)
    have hrest : ∀ x ∈ rest, validate_email_data x = true :=
      fun x hx => hv x (List.mem_cons_of_mem d hx)
    simp only [sdb_go, hd, if_true]
    split
    · rw [hins (cur ++ [prepare_email_data d]), if_pos rfl, ih hrest]
      simp [List.append_assoc]
      omega
    · rw [ih hrest]
      simp [List.append_assoc]
      omega

/-! ## Lemmas about `query_emails` -/

theorem cond_block_all (o : Option String) (mk : String → EmailRow → Bool) (r : EmailRow) :
    (cond_block o mk).all (fun c => c r) = opt_pass o (fun s => mk s r) := by
  cases o with
  | none => rfl
  | some s =>
    by_cases hs : (s == "") = true <;> simp [cond_block, opt_pass, hs]

theorem wa_block_all (o : Option Bool) (r : EmailRow) :
    (wa_block o).all (fun c => c r) = wa_pass o r := by
  cases o with
  | none => rfl
  | some b => cases b <;> simp [wa_block, wa_pass]

theorem query_conds_all (q : QueryFilters) (r : EmailRow) :
    (query_conds q).all (fun c => c r) = matches_filters q r := by
  simp only [query_conds, matches_filters, List.all_append, cond_block_all, wa_block_all]

/-! ## A zip-map-filter lemma for the Orchestrator -/

theorem zip_map_filter {α β : Type} (l : List α) (f : α → β) (g : α → Bool) :
    (((l.map f).zip (l.map g)).filter (fun pr => pr.2)).map (fun pr => pr.1)
      = (l.filter g).map f := by
  induction l with
  | nil => rfl
  | cons a rest ih =>
    by_cases hg : g a = true <;>
      simp [List.filter_cons, hg, ih]

/-! ## Claim C1 -/

/-- Claim C1 as stated is false: the per-message gate is
`has_required_fields(subject, sender_name, receiver_name)` — the display
names produced by address parsing — not the raw from/to headers.  A message
whose subject, from and to headers are all present and non-empty but whose
addresses are bare (so the parsed display names are empty) is skipped and
yields zero records, where the claim requires exactly one (the
empty-attachment record). -/
theorem c1_counterexample :
    ((⟨"S", "a@x.com", "b@x.com", "2023-01-01", []⟩ : EmailMessage).subject ≠ "" ∧
     (⟨"S", "a@x.com", "b@x.com", "2023-01-01", []⟩ : EmailMessage).sender_info ≠ "" ∧
     (⟨"S", "a@x.com", "b@x.com", "2023-01-01", []⟩ : EmailMessage).receiver_info ≠ "") ∧
    (⟨"S", "a@x.com", "b@x.com", "2023-01-01", []⟩ : EmailMessage).parts = [] ∧
    (parse_message ⟨fun _ => true⟩ "out/attachments" "t.pst"
      ⟨"S", "a@x.com", "b@x.com", "2023-01-01", []⟩ []).1 = [] := by
  refine ⟨⟨?_, ?_, ?_⟩, ?_, ?_⟩ <;> decide

/-- Claim C1 (amended): for a message passing the actual gate — non-empty
subject and non-empty parsed display names for from and to — exactly one
record is emitted per attachment part whose payload is non-empty and whose
save succeeds, and no other records; with zero qualifying attachment parts,
exactly one record with empty attachment fields is emitted. -/
theorem c1_amended (env : ParseEnv) (save_dir source_pst : String) (m : EmailMessage)
    (db : List EmailRow)
    (h : has_required_fields m.subject (parseaddr m.sender_info).1 (parseaddr m.receiver_info).1 = true) :
    (m.parts.filter is_attachment_part ≠ [] →
      (parse_message env save_dir source_pst m db).1
        = (m.parts.filter (persist_ok env save_dir)).map
            (attachment_record m.subject (parseaddr m.sender_info).1 (parseaddr m.sender_info).2
              (parseaddr m.receiver_info).1 (parseaddr m.receiver_info).2 m.date source_pst)) ∧
    (m.parts.filter is_attachment_part = [] →
      (parse_message env save_dir source_pst m db).1
        = [create_email_data m.subject (parseaddr m.sender_info).1 (parseaddr m.sender_info).2
            (parseaddr m.receiver_info).1 (parseaddr m.receiver_info).2 m.date "" "" source_pst]) := by
  unfold parse_message process_message_attachments
  dsimp only
  rw [if_pos h, pma_loop_spec]
  constructor
  · intro hne
    obtain ⟨x, hx⟩ := List.exists_mem_of_ne_nil _ hne
    obtain ⟨hx1, hx2⟩ := List.mem_filter.mp hx
    have hA : m.parts.any is_attachment_part = true := List.any_eq_true.mpr ⟨x, hx1, hx2⟩
    simp [hA]
  · intro heq
    have hnone : ∀ x ∈ m.parts, ¬ is_attachment_part x = true := by
      intro x hx hax
      have : x ∈ m.parts.filter is_attachment_part := List.mem_filter.mpr ⟨hx, hax⟩
      rw [heq] at this
      simp at this
    have hA : m.parts.any is_attachment_part = false := by
      rw [List.any_eq_false]
      exact hnone
    have hpe : m.parts.filter (persist_ok env save_dir) = [] := by
      rw [List.filter_eq_nil_iff]
      intro x hx hp
      have : is_attachment_part x = true := by
        have := hp
        simp [persist_ok, Bool.and_eq_true] at this
        exact this.1.1
      exact hnone x hx this
    simp [hA, hpe, store_data]

/-- Witness for the amended C1: a concrete message with display names and no
attachment parts yields exactly the one empty-attachment record. -/
theorem c1_witness :
    has_required_fields "S" (parseaddr "A <a@x>").1 (parseaddr "B <b@x>").1 = true ∧
    (parse_message ⟨fun _ => true⟩ "o/attachments" "t.pst"
      ⟨"S", "A <a@x>", "B <b@x>", "d", []⟩ []).1
      = [create_email_data "S" "A" "a@x" "B" "b@x" "d" "" "" "t.pst"] := by
  have h := c1_amended ⟨fun _ => true⟩ "o/attachments" "t.pst"
    ⟨"S", "A <a@x>", "B <b@x>", "d", []⟩ [] (by decide)
  exact ⟨by decide, (h.2 (by decide)).trans (by decide)⟩

/-! ## Claim C2 -/

theorem message_records_fields (env : ParseEnv) (sd sp : String) (m : EmailMessage) (d : EmailDict)
    (hd : d ∈ message_records env sd sp m) :
    dget d "subject" = m.subject ∧
    dget d "sender_name" = (parseaddr m.sender_info).1 ∧
    dget d "recipient_name" = (parseaddr m.receiver_info).1 ∧
    has_required_fields m.subject (parseaddr m.sender_info).1 (parseaddr m.receiver_info).1 = true := by
  unfold message_records parse_message process_message_attachments at hd
  dsimp only at hd
  by_cases hgate : has_required_fields m.subject (parseaddr m.sender_info).1 (parseaddr m.receiver_info).1 = true
  · rw [if_pos hgate, pma_loop_spec] at hd
    by_cases hA : m.parts.any is_attachment_part = true
    · simp only [hA, if_true] at hd
      obtain ⟨p, _, rfl⟩ := List.mem_map.mp hd
      exact ⟨rfl, rfl, rfl, hgate⟩
    · simp only [hA, Bool.false_eq_true, if_false, store_data] at hd
      rcases List.mem_append.mp hd with hL | hR
      · obtain ⟨p, _, rfl⟩ := List.mem_map.mp hL
        exact ⟨rfl, rfl, rfl, hgate⟩
      · rw [List.mem_singleton.mp hR]
        exact ⟨rfl, rfl, rfl, hgate⟩
  · rw [if_neg hgate] at hd
    simp at hd

/-- Claim C2 (amended): every record in a successful `parse_mbox_file`
result — the records handed to storage — has non-empty subject,
sender_name and recipient_name (the fields the upstream gate actually
checks); the claimed guarantee on sender_email / recipient_email does not
hold (see the counterexample). -/
theorem c2_amended (env : ParseEnv) (f : MboxFile) (od sp : String) (db : List EmailRow)
    (ds : List EmailDict) (d : EmailDict)
    (hok : (parse_mbox_file env f od sp db).2 = Except.ok ds) (hd : d ∈ ds) :
    dget d "subject" ≠ "" ∧ dget d "sender_name" ≠ "" ∧ dget d "recipient_name" ≠ "" := by
  rw [parse_mbox_file_spec] at hok
  by_cases hbr : f.broken = true
  · simp [hbr] at hok
  · simp only [hbr, Bool.false_eq_true, if_false, Except.ok.injEq] at hok
    subst hok
    obtain ⟨l, hl, hdl⟩ := List.mem_flatten.mp hd
    obtain ⟨m, _, rfl⟩ := List.mem_map.mp hl
    obtain ⟨h1, h2, h3, hgate⟩ := message_records_fields env _ sp m d hdl
    simp only [has_required_fields, Bool.and_eq_true, Bool.not_eq_true', beq_eq_false_iff_ne,
      ne_eq] at hgate
    rw [h1, h2, h3]
    exact ⟨hgate.1.1, hgate.1.2, hgate.2⟩

/-- Claim C2 counterexample: a message with `From: Alice <>` passes the gate
(display name present), is handed off with `sender_email = ""`, passes
`validate_email_data` (which only checks key presence), and `store_data`
with a path target stores the row with an empty `sender_email` — so a row
reaching durable storage can lack a non-empty sender address. -/
theorem c2_counterexample :
    (parse_message ⟨fun _ => true⟩ "o/attachments" "t.pst"
      ⟨"S", "Alice <>", "Bob <b@x.com>", "", []⟩ []).1
      = [create_email_data "S" "Alice" "" "Bob" "b@x.com" "" "" "" "t.pst"] ∧
    validate_email_data (create_email_data "S" "Alice" "" "Bob" "b@x.com" "" "" "" "t.pst") = true ∧
    store_data (create_email_data "S" "Alice" "" "Bob" "b@x.com" "" "" "" "t.pst")
      (DbTarget.path "emaildb.sqlite3") []
      = ([⟨"S", "Alice", "", "Bob", "b@x.com", "", "", "", "t.pst"⟩], true) ∧
    (⟨"S", "Alice", "", "Bob", "b@x.com", "", "", "", "t.pst"⟩ : EmailRow).sender_email = "" := by
  refine ⟨?_, ?_, ?_, ?_⟩ <;> decide

/-- Witness for the amended C2: a concrete mailbox file whose single record
has the three gate-checked fields non-empty. -/
theorem c2_witness :
    dget (create_email_data "S" "A" "a@x" "B" "b@x" "d" "" "" "p") "subject" ≠ "" ∧
    dget (create_email_data "S" "A" "a@x" "B" "b@x" "d" "" "" "p") "sender_name" ≠ "" ∧
    dget (create_email_data "S" "A" "a@x" "B" "b@x" "d" "" "" "p") "recipient_name" ≠ "" := by
  exact c2_amended ⟨fun _ => true⟩ ⟨"m", [⟨"S", "A <a@x>", "B <b@x>", "d", []⟩], false⟩ "o" "p" []
    [create_email_data "S" "A" "a@x" "B" "b@x" "d" "" "" "p"]
    (create_email_data "S" "A" "a@x" "B" "b@x" "d" "" "" "p") (by decide) (by decide)

/-! ## Claim C3 -/

/-- Claim C3 (confirmed): over records that all validate, with a working
connection and no chunk-level insert failure, `store_data_batch` returns
`(N, 0)`, appends exactly the prepared rows in order (so the chunking loses
and duplicates nothing), and the row count grows by exactly N. -/
theorem c3_batch_all_valid (env : BatchEnv) (data : List EmailDict) (db : List EmailRow) (k : Nat)
    (hconn : env.connOk = true) (hins : ∀ c, env.insOk c = true)
    (hvalid : ∀ d ∈ data, validate_email_data d = true) (_hk : 0 < k) :
    (store_data_batch env data db k).1 = data.length ∧
    (store_data_batch env data db k).2.1 = 0 ∧
    get_email_count (store_data_batch env data db k).2.2 = get_email_count db + data.length ∧
    (store_data_batch env data db k).2.2 = db ++ data.map prepare_email_data := by
  unfold store_data_batch
  by_cases hemp : data.isEmpty = true
  · rw [if_pos hemp]
    rw [List.isEmpty_iff.mp hemp]
    simp [get_email_count]
  · rw [if_neg hemp, if_pos hconn, sdb_go_all_ok env k hins data hvalid [] db 0 0]
    simp [get_email_count]

/-- Witness for C3: two valid records, batch size 1. -/
theorem c3_witness :
    (store_data_batch ⟨true, fun _ => true⟩
      [create_email_data "S" "A" "a" "B" "b" "d" "" "" "p",
       create_email_data "T" "A" "a" "B" "b" "d" "" "" "p"] [] 1).1 = 2 ∧
    (store_data_batch ⟨true, fun _ => true⟩
      [create_email_data "S" "A" "a" "B" "b" "d" "" "" "p",
       create_email_data "T" "A" "a" "B" "b" "d" "" "" "p"] [] 1).2.1 = 0 ∧
    get_email_count (store_data_batch ⟨true, fun _ => true⟩
      [create_email_data "S" "A" "a" "B" "b" "d" "" "" "p",
       create_email_data "T" "A" "a" "B" "b" "d" "" "" "p"] [] 1).2.2 = 2 := by
  have h := c3_batch_all_valid ⟨true, fun _ => true⟩
    [create_email_data "S" "A" "a" "B" "b" "d" "" "" "p",
     create_email_data "T" "A" "a" "B" "b" "d" "" "" "p"] [] 1
    rfl (fun _ => rfl) (by decide) (by decide)
  exact ⟨h.1, h.2.1, h.2.2.1⟩

/-! ## Claim C9 -/

/-- Claim C9 (confirmed): for every input list, environment and batch size,
`store_data_batch` accounts for every record exactly once:
`successful + failed = N`, whether records fail validation, chunks fail at
insert time, or the connection fails at open. -/
theorem c9_accounting (env : BatchEnv) (data : List EmailDict) (db : List EmailRow) (k : Nat) :
    (store_data_batch env data db k).1 + (store_data_batch env data db k).2.1 = data.length := by
  unfold store_data_batch
  by_cases hemp : data.isEmpty = true
  · rw [if_pos hemp, List.isEmpty_iff.mp hemp]
    rfl
  · by_cases hc : env.connOk = true
    · rw [if_neg hemp, if_pos hc, sdb_go_accounting]
      simp
    · simp [hemp, hc]

/-! ## Claim C4 -/

/-- Claim C4 (confirmed): for the same converted containers and the same
mailbox-file contents, the per-container stores' combined row count equals
the shared store's row count.  (In this code base the equality is
degenerate: the Extractor's `store_data(email_data, db_connection)` passes
the connection object where `db_manager.store_data` expects a path string,
so the hand-off always fails and both sides store zero rows.) -/
theorem c4_partition_equivalence (env : ParseEnv) (mbox_dir : String) (tree : MboxTree)
    (pst_files : List String)
    (_h : tree.map Prod.fst = pst_files.map splitext_name) :
    ((process_with_separate_dbs env mbox_dir tree pst_files).map get_email_count).sum
      = get_email_count (process_with_shared_db env mbox_dir tree) := by
  have hsep : ∀ x ∈ process_with_separate_dbs env mbox_dir tree pst_files, x = ([] : List EmailRow) := by
    intro x hx
    obtain ⟨pst, _, hsome⟩ := List.mem_filterMap.mp hx
    cases hl : List.lookup (splitext_name pst) tree with
    | none =>
      rw [hl] at hsome
      simp at hsome
    | some files =>
      rw [hl] at hsome
      simp only [Option.some.injEq] at hsome
      rw [← hsome]
      exact ingest_mbox_files_db env files _ pst []
  have hsum : ∀ (l : List (List EmailRow)), (∀ x ∈ l, x = []) → (l.map get_email_count).sum = 0 := by
    intro l
    induction l with
    | nil => intro _; rfl
    | cons a rest ih =>
      intro hall
      rw [List.map_cons, List.sum_cons, hall a (List.mem_cons_self a rest),
        ih (fun x hx => hall x (List.mem_cons_of_mem a hx))]
      rfl
  have hshared : process_with_shared_db env mbox_dir tree = [] := by
    unfold process_with_shared_db
    have hfold : ∀ (l : List (String × MboxFile)) (db : List EmailRow),
        l.foldl (fun db cf =>
          (parse_mbox_file env cf.2 (mbox_dir ++ "/" ++ cf.1) (determine_source_pst cf.1) db).1) db
          = db := by
      intro l
      induction l with
      | nil => intro db; rfl
      | cons cf rest ih =>
        intro db
        rw [List.foldl_cons, parse_mbox_file_db]
        exact ih db
    exact hfold _ []
  rw [hsum _ hsep, hshared]
  rfl

/-- Witness for C4: one container with one (empty) mailbox file, in both
partition modes. -/
theorem c4_witness :
    ([("a", [⟨"m.mbox", [], false⟩])] : MboxTree).map Prod.fst
      = (["a.pst"] : List String).map splitext_name ∧
    ((process_with_separate_dbs ⟨fun _ => true⟩ "mbox" [("a", [⟨"m.mbox", [], false⟩])] ["a.pst"]).map
        get_email_count).sum
      = get_email_count (process_with_shared_db ⟨fun _ => true⟩ "mbox" [("a", [⟨"m.mbox", [], false⟩])]) := by
  refine ⟨by decide, ?_⟩
  exact c4_partition_equivalence ⟨fun _ => true⟩ "mbox" [("a", [⟨"m.mbox", [], false⟩])] ["a.pst"]
    (by decide)

/-! ## Claim C5 -/

/-- Claim C5 (confirmed): when parsing one mailbox file raises,
`parse_mbox_file` rolls the connection back to its state at the start of
that file (no partial work survives) and re-raises; the coordinator's
per-file loop catches the exception and continues with the next mailbox
file unchanged, so one bad container never aborts the run. -/
theorem c5_error_handling (env : ParseEnv) (f : MboxFile) (rest : List MboxFile)
    (od sp : String) (db : List EmailRow) (h : f.broken = true) :
    parse_mbox_file env f od sp db = (db, Except.error "parse failure") ∧
    ingest_mbox_files env (f :: rest) od sp db = ingest_mbox_files env rest od sp db := by
  constructor
  · rw [parse_mbox_file_spec, if_pos h]
  · unfold ingest_mbox_files
    rw [List.foldl_cons, parse_mbox_file_db]

/-- Witness for C5: a broken mailbox file followed by a good one. -/
theorem c5_witness :
    parse_mbox_file ⟨fun _ => true⟩ ⟨"bad.mbox", [], true⟩ "o" "p" []
      = ([], Except.error "parse failure") ∧
    ingest_mbox_files ⟨fun _ => true⟩
        [⟨"bad.mbox", [], true⟩, ⟨"good.mbox", [⟨"S", "A <a@x>", "B <b@x>", "d", []⟩], false⟩]
        "o" "p" []
      = ingest_mbox_files ⟨fun _ => true⟩
          [⟨"good.mbox", [⟨"S", "A <a@x>", "B <b@x>", "d", []⟩], false⟩] "o" "p" [] := by
  exact c5_error_handling ⟨fun _ => true⟩ ⟨"bad.mbox", [], true⟩
    [⟨"good.mbox", [⟨"S", "A <a@x>", "B <b@x>", "d", []⟩], false⟩] "o" "p" [] rfl

/-! ## Claim C6 -/

/-- Claim C6 as stated is false: `os.path.basename("..")` is `".."` and no
later step changes it, so `sanitize_filename("..")` is itself a
parent-directory segment, contradicting "no parent-directory segments" for
every input.  (The 255-truncation clause also fails when the extension
exceeds 255 characters; see the C10 counterexample input.) -/
theorem c6_counterexample : sanitize_filename ('.' :: '.' :: []) = ['.', '.'] := by decide

/-- Claim C6 (amended): `sanitize_filename` never returns a path separator
and never returns a character from the disallowed set; the result is at most
255 characters whenever the split extension is at most 255 characters, and
the split extension is always retained as a suffix of the result (so
truncation preserves the extension); the result is the parent-directory
segment `..` only when the input's final path component is itself `..`; and
`sanitize_filename("../../etc/passwd")` is `"passwd"`. -/
theorem c6_amended (s : List Char) :
    ('/' ∉ sanitize_filename s ∧ '\\' ∉ sanitize_filename s) ∧
    (∀ c ∈ sanitize_filename s, c ∉ bad_chars) ∧
    ((splitext (replace_bad (basename s))).2.length ≤ 255 → (sanitize_filename s).length ≤ 255) ∧
    (splitext (replace_bad (basename s))).2.IsSuffix (sanitize_filename s) ∧
    (basename s ≠ ['.', '.'] → sanitize_filename s ≠ ['.', '.']) ∧
    sanitize_filename ("../../etc/passwd".data) = "passwd".data := by
  refine ⟨⟨sanitize_no_slash s, fun h => sanitize_filename_not_bad s _ h (by decide)⟩,
    fun c hc => sanitize_filename_not_bad s c hc,
    sanitize_filename_length s,
    sanitize_ext_suffix s,
    sanitize_neq_dots s,
    by decide⟩

set_option maxRecDepth 40000 in
set_option maxHeartbeats 1000000 in
/-- Witness for the amended C6: the `"../../etc/passwd"` instance, and a
304-character filename that actually takes the truncation branch — its
result is cut to at most 255 characters and still ends in its `".txt"`
extension. -/
theorem c6_witness :
    ('/' ∉ sanitize_filename ("../../etc/passwd".data) ∧
     (splitext (replace_bad (basename ("../../etc/passwd".data)))).2.length ≤ 255 ∧
     (sanitize_filename ("../../etc/passwd".data)).length ≤ 255 ∧
     sanitize_filename ("../../etc/passwd".data) = "passwd".data) ∧
    ((splitext (replace_bad (basename (List.replicate 300 'a' ++ ".txt".data)))).2.length ≤ 255 ∧
     255 < (replace_bad (basename (List.replicate 300 'a' ++ ".txt".data))).length ∧
     (sanitize_filename (List.replicate 300 'a' ++ ".txt".data)).length ≤ 255 ∧
     (splitext (replace_bad (basename (List.replicate 300 'a' ++ ".txt".data)))).2.IsSuffix
       (sanitize_filename (List.replicate 300 'a' ++ ".txt".data))) := by
  have h1 := c6_amended ("../../etc/passwd".data)
  have h2 := c6_amended (List.replicate 300 'a' ++ ".txt".data)
  exact ⟨⟨h1.1.1, by decide, h1.2.2.1 (by decide), h1.2.2.2.2.2⟩,
    ⟨by decide, by decide, h2.2.2.1 (by decide), h2.2.2.2.1⟩⟩

/-! ## Claim C7 -/

/-- Claim C7 as stated is false: the sender filter is compiled to
`sender_email LIKE '%f%'`, and SQLite's default LIKE is ASCII
case-insensitive, so a query for `"a"` returns a row whose sender address
is `"A@X.COM"` even though `"a"` is not a substring of it. -/
theorem c7_counterexample :
    query_emails [⟨"", "", "A@X.COM", "", "", "", "", "", ""⟩]
        ⟨some "a", none, none, none, none, none⟩ 100 0
      = [⟨"", "", "A@X.COM", "", "", "", "", "", ""⟩] ∧
    contains_substr ("A@X.COM".data) ("a".data) = false := by
  exact ⟨by decide, by decide⟩

/-- Claim C7 (amended): `query_emails` returns exactly the
offset/limit window of the rows matching all supplied filters — sender and
recipient by SQL LIKE `%f%` (ASCII case-insensitive, `%`/`_` wildcards),
exact match on source container, inclusive lexicographic date bounds,
attachment presence by non-empty `attachment_filename` — ordered by
`email_date` descending. -/
theorem c7_amended (db : List EmailRow) (q : QueryFilters) (limit offset : Nat) :
    query_emails db q limit offset
      = ((sort_by_date_desc (db.filter (matches_filters q))).drop offset).take limit ∧
    (sort_by_date_desc (db.filter (matches_filters q))).Perm (db.filter (matches_filters q)) ∧
    date_sorted_desc (query_emails db q limit offset) := by
  have hfe : db.filter (fun r => (query_conds q).all (fun c => c r)) = db.filter (matches_filters q) :=
    List.filter_congr (fun r _ => query_conds_all q r)
  refine ⟨?_, sort_by_date_desc_perm _, ?_⟩
  · unfold query_emails
    rw [hfe]
  · unfold query_emails
    have hs := sort_by_date_desc_sorted (db.filter (fun r => (query_conds q).all (fun c => c r)))
    have hsub :
        ((((sort_by_date_desc (db.filter (fun r => (query_conds q).all (fun c => c r)))).drop
          offset).take limit)).Sublist
          (sort_by_date_desc (db.filter (fun r => (query_conds q).all (fun c => c r)))) :=
      (List.take_sublist _ _).trans (List.drop_sublist _ _)
    exact List.Pairwise.sublist hsub hs

/-! ## Claim C8 -/

/-- Claim C8 (confirmed): `pst_to_mbox` returns exactly the discovered
`.pst`/`.ost` files whose conversion succeeded, in discovery order; with
distinct file names, a container whose conversion failed never appears in
the returned list. -/
theorem c8_successful_only (convOk : PstEntry → Bool) (found : List PstEntry) :
    pst_to_mbox convOk found
      = ((found.filter (fun e => is_pst_file e.file)).filter convOk).map (fun e => e.file) ∧
    (((found.filter (fun e => is_pst_file e.file)).map (fun e => e.file)).Nodup →
      ∀ e ∈ found, is_pst_file e.file = true → convOk e = false →
        e.file ∉ pst_to_mbox convOk found) := by
  have hmain : pst_to_mbox convOk found
      = ((found.filter (fun e => is_pst_file e.file)).filter convOk).map (fun e => e.file) := by
    unfold pst_to_mbox
    dsimp only
    by_cases hemp : (found.filter (fun e => is_pst_file e.file)).isEmpty = true
    · rw [if_pos hemp]
      rw [List.isEmpty_iff.mp hemp]
      rfl
    · rw [if_neg hemp]
      exact zip_map_filter (found.filter (fun e => is_pst_file e.file)) (fun e => e.file) convOk
  refine ⟨hmain, ?_⟩
  intro hnd e he hpst hconv hmem
  rw [hmain] at hmem
  obtain ⟨e', he', heq⟩ := List.mem_map.mp hmem
  obtain ⟨he'f, he'c⟩ := List.mem_filter.mp he'
  have heF : e ∈ found.filter (fun e => is_pst_file e.file) := List.mem_filter.mpr ⟨he, hpst⟩
  have hee : e' = e := List.inj_on_of_nodup_map hnd he'f heF heq
  rw [hee] at he'c
  rw [hconv] at he'c
  exact absurd he'c (by decide)

/-- Witness for C8: of two discovered containers only the one whose
conversion succeeds is returned; the failed one appears nowhere. -/
theorem c8_witness :
    pst_to_mbox (fun e => e.file == "a.pst")
        [⟨"t/a.pst", "a.pst"⟩, ⟨"t/b.pst", "b.pst"⟩]
      = ["a.pst"] ∧
    "b.pst" ∉ pst_to_mbox (fun e => e.file == "a.pst")
        [⟨"t/a.pst", "a.pst"⟩, ⟨"t/b.pst", "b.pst"⟩] := by
  refine ⟨by decide, ?_⟩
  exact (c8_successful_only (fun e => e.file == "a.pst")
      [⟨"t/a.pst", "a.pst"⟩, ⟨"t/b.pst", "b.pst"⟩]).2
    (by decide) ⟨"t/b.pst", "b.pst"⟩ (by decide) (by decide) (by decide)

/-! ## Claim C10 -/

set_option maxRecDepth 40000 in
set_option maxHeartbeats 1000000 in
/-- Claim C10 as stated is false: for `"a." ++ 255 * "b"` the first
application keeps the whole 256-character extension (the name part is
sliced to nothing), yielding a 256-character result; the second application
then truncates it to 255 characters, so the two results differ. -/
theorem c10_counterexample :
    sanitize_filename (sanitize_filename ('a' :: '.' :: List.replicate 255 'b'))
      ≠ sanitize_filename ('a' :: '.' :: List.replicate 255 'b') := by decide

/-- Claim C10 (amended): `sanitize_filename` is idempotent on every input
whose sanitized result is at most 255 characters (all inputs except those
whose extension alone exceeds 255 characters). -/
theorem c10_amended (s : List Char) (h : (sanitize_filename s).length ≤ 255) :
    sanitize_filename (sanitize_filename s) = sanitize_filename s :=
  sanitize_fixed _ (sanitize_no_slash s) (fun c hc => sanitize_filename_not_bad s c hc) h

/-- Witness for the amended C10 at a short concrete filename. -/
theorem c10_witness :
    (sanitize_filename ("report.txt".data)).length ≤ 255 ∧
    sanitize_filename (sanitize_filename ("report.txt".data))
      = sanitize_filename ("report.txt".data) :=
  ⟨by decide, c10_amended ("report.txt".data) (by decide)⟩
